import Mathlib

/-!
Shallow embedding of the employee-generator repository.

Two source variants exist under `src/`:
* `src/main.js` — "rich" variant: lenient input normalization with alias keys
  and multiple candidate sources, millisecond-approximate birthdate returned
  as an ISO timestamp, and a surname-diversity repair pass.
* `src/unnamed/part_000` — "simple" variant: lenient normalization reading
  only `ageRange.min`/`ageRange.max`, calendar year/month/day birthdate
  returned as a 10-character "YYYY-MM-DD" string, no repair pass.

JavaScript values are modelled by `JSVal`.  Numbers are split into
integer-valued numbers (`num`) and non-integer numbers (`numNonInt`, covering
fractional values and NaN): the source only ever inspects numbers through
`Number.isInteger` and, when that holds, through integer comparisons, so this
split captures every code path exactly.

`Math.random` is modelled by a stream of natural-number draws; the call
`randomInt(lo, hi)` (which returns `Math.floor(Math.random()*(hi-lo+1)) + lo`,
a uniformly chosen integer of `[lo, hi]` when `lo ≤ hi`) becomes
`lo + (draw % (hi - lo + 1))`, which realises exactly the set of values the
source can produce.  Each call site consumes one fixed stream index; every
branch of the generator consumes the same number of draws, so indices are
static offsets.
-/

namespace EmployeeGen

/-- Model of the JavaScript values the generator can receive and inspect. -/
inductive JSVal where
  | null
  | undefined
  | num (n : Int)
  | numNonInt
  | str (s : String)
  | bool (b : Bool)
  | obj (fields : List (String × JSVal))

/-- JavaScript `a ?? b`: `b` when `a` is `null` or `undefined`, else `a`. -/
def coalesce : JSVal → JSVal → JSVal
  | .null, b => b
  | .undefined, b => b
  | a, _ => a

/-- Property access `v.key`: the field when `v` is an object that has it,
`undefined` otherwise (absent key, or a primitive receiver — the source only
reads keys such as `min`/`max` that no primitive wrapper defines). -/
def getField : JSVal → String → JSVal
  | .obj fs, k =>
      match fs.lookup k with
      | some v => v
      | none => .undefined
  | _, _ => .undefined

/-- `Number.isInteger(v)`. -/
def isIntegerNum : JSVal → Bool
  | .num _ => true
  | _ => false

/-- The integer value of an integer-valued number (only read under an
`isIntegerNum` guard, mirroring the `&&` short-circuit in the source). -/
def intVal : JSVal → Int
  | .num n => n
  | _ => 0

/-- JavaScript truthiness, for the values this program can meet. -/
def truthy : JSVal → Bool
  | .null => false
  | .undefined => false
  | .num n => n != 0
  | .numNonInt => true
  | .str s => s != ""
  | .bool b => b
  | .obj _ => true

/-- `typeof v === "object"` (true for `null` and objects). -/
def typeofIsObject : JSVal → Bool
  | .null => true
  | .obj _ => true
  | _ => false

/-- The parameters resolved from `dtoIn`: employee count and age bounds. -/
structure Params where
  employeeCount : Nat
  minAge : Int
  maxAge : Int
deriving DecidableEq, Repr

/-- Employee-count resolution, `main.js` lines 23–38 (identical in
`part_000` lines 12–26): a number input is taken directly; an object is
probed under `employeeCount ?? personCount ?? count`; a candidate is kept
only when it is a non-negative integer, else the count stays 0. -/
def resolveEmployeeCount (dtoIn : JSVal) : Nat :=
  let safeDtoIn := coalesce dtoIn .null
  match safeDtoIn with
  | .num n => if 0 ≤ n then n.toNat else 0
  | .numNonInt => 0
  | .obj _ =>
      let candidate :=
        coalesce (getField safeDtoIn "employeeCount")
          (coalesce (getField safeDtoIn "personCount")
            (getField safeDtoIn "count"))
      if isIntegerNum candidate ∧ 0 ≤ intVal candidate then
        (intVal candidate).toNat
      else 0
  | _ => 0

/-- The alias chain for the lower bound, `main.js` lines 69–76:
`src.min ?? src.minAge ?? src.ageMin ?? src.from ?? src.start ?? src.lower
?? src.youngest`. -/
def minChain (src : JSVal) : JSVal :=
  coalesce (getField src "min")
    (coalesce (getField src "minAge")
      (coalesce (getField src "ageMin")
        (coalesce (getField src "from")
          (coalesce (getField src "start")
            (coalesce (getField src "lower")
              (getField src "youngest"))))))

/-- The alias chain for the upper bound, `main.js` lines 79–86. -/
def maxChain (src : JSVal) : JSVal :=
  coalesce (getField src "max")
    (coalesce (getField src "maxAge")
      (coalesce (getField src "ageMax")
        (coalesce (getField src "to")
          (coalesce (getField src "end")
            (coalesce (getField src "upper")
              (getField src "oldest"))))))

/-- Candidate sources for the age bounds, `main.js` lines 51–61: the
`ageRange` sub-object when truthy and of object type, then the `age`
sub-object likewise, then the input object itself. -/
def candidatesOf (dtoIn : JSVal) : List JSVal :=
  (if truthy (getField dtoIn "ageRange") &&
      typeofIsObject (getField dtoIn "ageRange") then
    [getField dtoIn "ageRange"] else []) ++
  (if truthy (getField dtoIn "age") &&
      typeofIsObject (getField dtoIn "age") then
    [getField dtoIn "age"] else []) ++
  [dtoIn]

/-- The loop body's guarded assignment `if (x === undefined) x = e`. -/
def ifUndefined (a x : JSVal) : JSVal :=
  match a with
  | .undefined => x
  | v => v

/-- One step of the candidate-scanning loop of `main.js` lines 67–88:
fill `minCandidate` (resp. `maxCandidate`) from the alias chain of `src`
when it is still `undefined`. -/
def pickStep (acc : JSVal × JSVal) (src : JSVal) : JSVal × JSVal :=
  (ifUndefined acc.1 (minChain src), ifUndefined acc.2 (maxChain src))

/-- The candidate-scanning loop, `main.js` lines 63–88. -/
def pickCandidates (cands : List JSVal) : JSVal × JSVal :=
  cands.foldl pickStep (.undefined, .undefined)

/-- Validation and clamping of the two candidates, `main.js` lines 90–103
(identically `part_000` lines 40–48), with the defaults 18/65 of lines
43–44: the lower candidate is kept when a non-negative integer; the upper
candidate is kept when an integer at least the resolved lower bound; finally
the upper bound is forced up to the lower bound when still below it. -/
def applyRange (minCandidate maxCandidate : JSVal) : Int × Int :=
  let minAge : Int :=
    if isIntegerNum minCandidate ∧ 0 ≤ intVal minCandidate then
      intVal minCandidate
    else 18
  let maxAge : Int :=
    if isIntegerNum maxCandidate ∧ minAge ≤ intVal maxCandidate then
      intVal maxCandidate
    else 65
  if maxAge < minAge then (minAge, minAge) else (minAge, maxAge)

/-- Full input normalization of the rich variant, `main.js` lines 19–104. -/
def resolveParamsRich (dtoIn : JSVal) : Params :=
  let safeDtoIn := coalesce dtoIn .null
  let count := resolveEmployeeCount dtoIn
  match safeDtoIn with
  | .obj _ =>
      let picked := pickCandidates (candidatesOf safeDtoIn)
      let range := applyRange picked.1 picked.2
      ⟨count, range.1, range.2⟩
  | _ => ⟨count, 18, 65⟩

/-- Full input normalization of the simple variant, `part_000` lines 9–49:
the age block runs only when the input is a non-null object whose
`ageRange` field is truthy, and reads only `ageRange.min`/`ageRange.max`. -/
def resolveParamsSimple (dtoIn : JSVal) : Params :=
  let safeDtoIn := coalesce dtoIn .null
  let count := resolveEmployeeCount dtoIn
  match safeDtoIn with
  | .obj _ =>
      if truthy (getField safeDtoIn "ageRange") then
        let range :=
          applyRange (getField (getField safeDtoIn "ageRange") "min")
            (getField (getField safeDtoIn "ageRange") "max")
        ⟨count, range.1, range.2⟩
      else ⟨count, 18, 65⟩
  | _ => ⟨count, 18, 65⟩

/-- Male first names pool, `main.js` lines 109–118. -/
def maleNames : List String :=
  ["Peter", "John", "Martin", "Thomas", "Michael", "James", "Robert",
   "William"]

/-- Female first names pool, `main.js` lines 121–130. -/
def femaleNames : List String :=
  ["Emma", "Olivia", "Sophia", "Ava", "Isabella", "Mia", "Emily", "Amelia"]

/-- Surname pool, `main.js` lines 133–142. -/
def surnames : List String :=
  ["Smith", "Johnson", "Brown", "Taylor", "Anderson", "Thomas", "Jackson",
   "White"]

/-- Workload pool, `main.js` line 145. -/
def workloads : List Int := [10, 20, 30, 40]

/-- Gender pool, `main.js` line 148. -/
def genders : List String := ["male", "female"]

/-- A random source: the stream of raw draws, one per `randomInt` call. -/
def RandSrc : Type := Nat → Nat

/-- `randomInt(lo, hi)` fed by raw draw `v`: a value of `[lo, hi]`
(`Math.floor(Math.random() * (hi - lo + 1)) + lo`), every value reachable. -/
def randomInt (v : Nat) (lo hi : Int) : Int :=
  lo + (v : Int) % (hi - lo + 1)

/-- `randomElement(array)` fed by raw draw `v`. -/
def randomElement {α : Type} [Inhabited α] (l : List α) (v : Nat) : α :=
  l.getD (randomInt v 0 ((l.length : Int) - 1)).toNat default

/-- `MS_PER_YEAR = 1000*60*60*24*365.25`, `main.js` line 173 (an exact
integer: 31 557 600 000). -/
def MS_PER_YEAR : Int := 31557600000

/-- `randomBirthdateISO` of `main.js` lines 183–198, up to the final
`toISOString` formatting: the birth instant in epoch milliseconds,
`now - randomInt(minAge*MS_PER_YEAR, maxAge*MS_PER_YEAR)`.  The ISO
formatting is an injective presentation of this integer and no claim
inspects the text, so the instant itself stands for the birthdate. -/
def randomBirthdateMs (v : Nat) (now minAgeYears maxAgeYears : Int) : Int :=
  now - randomInt v (minAgeYears * MS_PER_YEAR) (maxAgeYears * MS_PER_YEAR)

/-- An employee of the rich variant (`main.js` lines 222–228); `birthdate`
is the birth instant in epoch milliseconds (see `randomBirthdateMs`). -/
structure EmployeeR where
  name : String
  surname : String
  gender : String
  birthdate : Int
  workload : Int
deriving DecidableEq, Repr

instance : Inhabited EmployeeR := ⟨⟨"", "", "", 0, 0⟩⟩

/-- One iteration of the generation loop of `main.js` lines 204–229.
Each iteration consumes five draws, at stream offsets `5*i .. 5*i+4`:
gender, first name, surname, birthdate, workload, in source order. -/
def genEmployeeR (s : RandSrc) (now minAge maxAge : Int) (i : Nat) :
    EmployeeR :=
  let gender := randomElement genders (s (5 * i))
  let name :=
    if gender = "male" then randomElement maleNames (s (5 * i + 1))
    else randomElement femaleNames (s (5 * i + 1))
  let surname := randomElement surnames (s (5 * i + 2))
  let birthdate := randomBirthdateMs (s (5 * i + 3)) now minAge maxAge
  let workload := randomElement workloads (s (5 * i + 4))
  ⟨name, surname, gender, birthdate, workload⟩

/-- The overwrite loop of `main.js` lines 244–249: replace the surname of
the first employees, one per missing surname, stopping at either list's
end. -/
def overwriteMissing : List EmployeeR → List String → List EmployeeR
  | es, [] => es
  | [], _ => []
  | e :: es, m :: ms => { e with surname := m } :: overwriteMissing es ms

/-- The surname-diversity repair pass of `main.js` lines 235–251: when the
count reaches the pool size and fewer distinct surnames than the pool holds
are used, overwrite the first employees with the missing surnames (the pool
filtered by non-membership in the used set, hence in pool order). -/
def repairDiversity (employeeCount : Nat) (emps : List EmployeeR) :
    List EmployeeR :=
  if employeeCount ≥ surnames.length then
    let usedSurnames := (emps.map EmployeeR.surname).dedup
    if usedSurnames.length < surnames.length then
      overwriteMissing emps
        (surnames.filter (fun n => !(usedSurnames.contains n)))
    else emps
  else emps

/-- The rich variant entry point, `main.js` `main` (lines 19–255):
normalize, generate `employeeCount` employees, run the repair pass. -/
def mainRich (s : RandSrc) (now : Int) (dtoIn : JSVal) : List EmployeeR :=
  let p := resolveParamsRich dtoIn
  let employees :=
    (List.range p.employeeCount).map (genEmployeeR s now p.minAge p.maxAge)
  repairDiversity p.employeeCount employees

/-- A calendar date (year, month 1–12, day 1–31). -/
structure Date where
  year : Int
  month : Int
  day : Int
deriving DecidableEq, Repr

/-- Gregorian leap-year rule, as applied by the JavaScript `Date` engine. -/
def isLeapYear (y : Int) : Bool :=
  y % 4 == 0 && (y % 100 != 0 || y % 400 == 0)

/-- The `Date(year, …)` constructor quirk: a year argument of 0–99 is read
as 1900–1999. -/
def jsConstructorYear (y : Int) : Int :=
  if 0 ≤ y ∧ y ≤ 99 then 1900 + y else y

/-- `new Date(year, month, 0).getDate()` of `part_000` line 112: the number
of days of 1-based month `month` of year `year` (via the constructor's
two-digit-year adjustment). -/
def daysInMonth (year month : Int) : Int :=
  if month == 2 then (if isLeapYear (jsConstructorYear year) then 29 else 28)
  else if month == 4 || month == 6 || month == 9 || month == 11 then 30
  else 31

/-- Zero padding of `part_000` lines 115–116 (`String(n).padStart(2,"0")`). -/
def pad2 (n : Int) : String :=
  if 0 ≤ n ∧ n < 10 then "0" ++ toString n else toString n

/-- The 10-character date string of `part_000` line 119. -/
def format10 (d : Date) : String :=
  toString d.year ++ "-" ++ pad2 d.month ++ "-" ++ pad2 d.day

/-- `randomBirthdate10` of `part_000` lines 102–120, before formatting:
draw a year of `[currentYear - maxAge, currentYear - minAge]`, a month of
`[1, 12]`, then a day of `[1, daysInMonth]`, consuming the three draws at
stream offsets `k`, `k+1`, `k+2`. -/
def randomBirthdate10Date (s : RandSrc) (k : Nat) (currentYear : Int)
    (minAgeYears maxAgeYears : Int) : Date :=
  let minYear := currentYear - maxAgeYears
  let maxYear := currentYear - minAgeYears
  let year := randomInt (s k) minYear maxYear
  let month := randomInt (s (k + 1)) 1 12
  let day := randomInt (s (k + 2)) 1 (daysInMonth year month)
  ⟨year, month, day⟩

/-- An employee of the simple variant (`part_000` lines 137–143);
`birthdate` is the "YYYY-MM-DD" string. -/
structure EmployeeS where
  name : String
  surname : String
  gender : String
  birthdate : String
  workload : Int
deriving DecidableEq, Repr

instance : Inhabited EmployeeS := ⟨⟨"", "", "", "", 0⟩⟩

/-- One iteration of the generation loop of `part_000` lines 127–144.
Each iteration consumes seven draws, at stream offsets `7*i .. 7*i+6`:
gender, first name, surname, birth year, birth month, birth day, workload,
in source order (only the clock's year is read by the sampler). -/
def genEmployeeS (s : RandSrc) (today : Date) (minAge maxAge : Int)
    (i : Nat) : EmployeeS :=
  let gender := randomElement genders (s (7 * i))
  let name :=
    if gender = "male" then randomElement maleNames (s (7 * i + 1))
    else randomElement femaleNames (s (7 * i + 1))
  let surname := randomElement surnames (s (7 * i + 2))
  let birthdate :=
    format10 (randomBirthdate10Date s (7 * i + 3) today.year minAge maxAge)
  let workload := randomElement workloads (s (7 * i + 6))
  ⟨name, surname, gender, birthdate, workload⟩

/-- The simple variant entry point, `part_000` `main` (lines 9–147). -/
def mainSimple (s : RandSrc) (today : Date) (dtoIn : JSVal) :
    List EmployeeS :=
  let p := resolveParamsSimple dtoIn
  (List.range p.employeeCount).map (genEmployeeS s today p.minAge p.maxAge)

/-- Whole-years age at `today` of a person born on `birth`: the year
difference, lowered by one when the birthday has not yet occurred this
year. -/
def ageAt (birth today : Date) : Int :=
  today.year - birth.year -
    (if today.month < birth.month ∨
        (today.month = birth.month ∧ today.day < birth.day) then 1 else 0)

/-- The failure causes of the strict variant (`InvalidInputError` tags). -/
inductive InvalidInputCause where
  | notAnObject
  | invalidEmployeeCount
  | invalidAgeRange
deriving DecidableEq, Repr

/-- Modelled from the spec: the strict variant's source is not under
`src/` (only the two lenient variants are), so its validator follows
§4.1/§7 of the specification: the input must be a non-null object (else
`not-an-object`); `employeeCount` must be a valid positive integer (else
`invalid-employee-count`); `ageRange.min` and `ageRange.max` must be
non-negative integers with `min ≤ max` (else `invalid-age-range`); no
defaults, and generation does not proceed on failure. -/
def mainStrict (s : RandSrc) (now : Int) (dtoIn : JSVal) :
    Except InvalidInputCause (List EmployeeR) :=
  match dtoIn with
  | .obj _ =>
      let c := getField dtoIn "employeeCount"
      if isIntegerNum c ∧ 0 < intVal c then
        let mn := getField (getField dtoIn "ageRange") "min"
        let mx := getField (getField dtoIn "ageRange") "max"
        if isIntegerNum mn ∧ 0 ≤ intVal mn ∧ isIntegerNum mx ∧
            0 ≤ intVal mx ∧ intVal mn ≤ intVal mx then
          .ok ((List.range (intVal c).toNat).map
            (genEmployeeR s now (intVal mn) (intVal mx)))
        else .error .invalidAgeRange
      else .error .invalidEmployeeCount
  | _ => .error .notAnObject

/-- Specification-side reading of §4.1's resolution order: the first
defined (non-`undefined`) value of a list, `undefined` when none is. -/
def firstDefined : List JSVal → JSVal
  | [] => .undefined
  | v :: rest =>
      match v with
      | .undefined => firstDefined rest
      | v => v

/-! ### Helper lemmas -/

lemma overwriteMissing_length (es : List EmployeeR) (ms : List String) :
    (overwriteMissing es ms).length = es.length := by
  induction es generalizing ms with
  | nil => cases ms <;> rfl
  | cons e es ih =>
      cases ms with
      | nil => rfl
      | cons m ms => simp [overwriteMissing, ih]

lemma repairDiversity_length (cnt : Nat) (es : List EmployeeR) :
    (repairDiversity cnt es).length = es.length := by
  simp only [repairDiversity]
  split
  · split
    · exact overwriteMissing_length ..
    · rfl
  · rfl

lemma applyRange_fst (a b : JSVal) :
    (applyRange a b).1 =
      if isIntegerNum a ∧ 0 ≤ intVal a then intVal a else 18 := by
  simp only [applyRange]
  split_ifs <;> rfl

lemma applyRange_fst_nonneg (a b : JSVal) : 0 ≤ (applyRange a b).1 := by
  rw [applyRange_fst]
  split
  · omega
  · omega

lemma applyRange_fst_le_snd (a b : JSVal) :
    (applyRange a b).1 ≤ (applyRange a b).2 := by
  simp only [applyRange]
  split_ifs <;> simp_all

lemma ifUndefined_assoc (a x y : JSVal) :
    ifUndefined (ifUndefined a x) y = ifUndefined a (ifUndefined x y) := by
  cases a <;> rfl

lemma firstDefined_cons (v : JSVal) (l : List JSVal) :
    firstDefined (v :: l) = ifUndefined v (firstDefined l) := by
  cases v <;> rfl

lemma foldl_pickStep (cands : List JSVal) (a b : JSVal) :
    cands.foldl pickStep (a, b) =
      (ifUndefined a (firstDefined (cands.map minChain)),
       ifUndefined b (firstDefined (cands.map maxChain))) := by
  induction cands generalizing a b with
  | nil => cases a <;> cases b <;> rfl
  | cons src rest ih =>
      simp only [List.foldl_cons, List.map_cons, pickStep]
      rw [ih, firstDefined_cons, firstDefined_cons, ifUndefined_assoc,
        ifUndefined_assoc]

lemma pickCandidates_eq_firstDefined (cands : List JSVal) :
    pickCandidates cands =
      (firstDefined (cands.map minChain),
       firstDefined (cands.map maxChain)) := by
  unfold pickCandidates
  rw [foldl_pickStep]
  rfl

lemma resolveParamsRich_range (d : JSVal) :
    0 ≤ (resolveParamsRich d).minAge ∧
      (resolveParamsRich d).minAge ≤ (resolveParamsRich d).maxAge := by
  cases d
  case obj fields => exact ⟨applyRange_fst_nonneg .., applyRange_fst_le_snd ..⟩
  all_goals
    exact ⟨show (0 : Int) ≤ 18 by norm_num, show (18 : Int) ≤ 65 by norm_num⟩

lemma resolveParamsSimple_range (d : JSVal) :
    0 ≤ (resolveParamsSimple d).minAge ∧
      (resolveParamsSimple d).minAge ≤ (resolveParamsSimple d).maxAge := by
  cases d
  case obj fields =>
      by_cases h : truthy (getField (JSVal.obj fields) "ageRange") = true
      · have hd : resolveParamsSimple (JSVal.obj fields) =
            ⟨resolveEmployeeCount (JSVal.obj fields),
             (applyRange
                (getField (getField (JSVal.obj fields) "ageRange") "min")
                (getField (getField (JSVal.obj fields) "ageRange") "max")).1,
             (applyRange
                (getField (getField (JSVal.obj fields) "ageRange") "min")
                (getField (getField (JSVal.obj fields) "ageRange") "max")).2⟩
            := by
          simp only [resolveParamsSimple, coalesce]
          rw [if_pos h]
        rw [hd]
        exact ⟨applyRange_fst_nonneg .., applyRange_fst_le_snd ..⟩
      · have hd : resolveParamsSimple (JSVal.obj fields) =
            ⟨resolveEmployeeCount (JSVal.obj fields), 18, 65⟩ := by
          simp only [resolveParamsSimple, coalesce]
          rw [if_neg h]
        rw [hd]
        exact ⟨by norm_num, by norm_num⟩
  all_goals
    exact ⟨show (0 : Int) ≤ 18 by norm_num, show (18 : Int) ≤ 65 by norm_num⟩

lemma genEmployeeR_congr (s1 s2 : RandSrc) (now mn mx : Int) (i : Nat)
    (h : ∀ j, 5 * i ≤ j → j < 5 * i + 5 → s1 j = s2 j) :
    genEmployeeR s1 now mn mx i = genEmployeeR s2 now mn mx i := by
  unfold genEmployeeR
  rw [h (5 * i) (by omega) (by omega), h (5 * i + 1) (by omega) (by omega),
    h (5 * i + 2) (by omega) (by omega), h (5 * i + 3) (by omega) (by omega),
    h (5 * i + 4) (by omega) (by omega)]

lemma randomBirthdate10Date_congr (s1 s2 : RandSrc) (k : Nat)
    (currentYear mn mx : Int) (h0 : s1 k = s2 k) (h1 : s1 (k + 1) = s2 (k + 1))
    (h2 : s1 (k + 2) = s2 (k + 2)) :
    randomBirthdate10Date s1 k currentYear mn mx =
      randomBirthdate10Date s2 k currentYear mn mx := by
  unfold randomBirthdate10Date
  rw [h0, h1, h2]

lemma genEmployeeS_congr (s1 s2 : RandSrc) (today : Date) (mn mx : Int)
    (i : Nat) (h : ∀ j, 7 * i ≤ j → j < 7 * i + 7 → s1 j = s2 j) :
    genEmployeeS s1 today mn mx i = genEmployeeS s2 today mn mx i := by
  unfold genEmployeeS
  rw [h (7 * i) (by omega) (by omega), h (7 * i + 1) (by omega) (by omega),
    h (7 * i + 2) (by omega) (by omega), h (7 * i + 6) (by omega) (by omega),
    randomBirthdate10Date_congr s1 s2 (7 * i + 3) today.year mn mx
      (h (7 * i + 3) (by omega) (by omega)) (h (7 * i + 4) (by omega) (by omega))
      (h (7 * i + 5) (by omega) (by omega))]

lemma mainRich_congr (s1 s2 : RandSrc) (now : Int) (d : JSVal)
    (h : ∀ k, k < 5 * (resolveParamsRich d).employeeCount → s1 k = s2 k) :
    mainRich s1 now d = mainRich s2 now d := by
  have hmap :
      (List.range (resolveParamsRich d).employeeCount).map
          (genEmployeeR s1 now (resolveParamsRich d).minAge
            (resolveParamsRich d).maxAge) =
        (List.range (resolveParamsRich d).employeeCount).map
          (genEmployeeR s2 now (resolveParamsRich d).minAge
            (resolveParamsRich d).maxAge) := by
    apply List.map_congr_left
    intro i hi
    rw [List.mem_range] at hi
    exact genEmployeeR_congr s1 s2 _ _ _ i
      (fun j h1 h2 => h j (by omega))
  show repairDiversity (resolveParamsRich d).employeeCount
      ((List.range (resolveParamsRich d).employeeCount).map
        (genEmployeeR s1 now (resolveParamsRich d).minAge
          (resolveParamsRich d).maxAge)) =
    repairDiversity (resolveParamsRich d).employeeCount
      ((List.range (resolveParamsRich d).employeeCount).map
        (genEmployeeR s2 now (resolveParamsRich d).minAge
          (resolveParamsRich d).maxAge))
  rw [hmap]

lemma mainSimple_congr (s1 s2 : RandSrc) (today : Date) (d : JSVal)
    (h : ∀ k, k < 7 * (resolveParamsSimple d).employeeCount → s1 k = s2 k) :
    mainSimple s1 today d = mainSimple s2 today d := by
  show (List.range (resolveParamsSimple d).employeeCount).map
      (genEmployeeS s1 today (resolveParamsSimple d).minAge
        (resolveParamsSimple d).maxAge) =
    (List.range (resolveParamsSimple d).employeeCount).map
      (genEmployeeS s2 today (resolveParamsSimple d).minAge
        (resolveParamsSimple d).maxAge)
  apply List.map_congr_left
  intro i hi
  rw [List.mem_range] at hi
  exact genEmployeeS_congr s1 s2 _ _ _ i (fun j h1 h2 => h j (by omega))

lemma overwriteMissing_getD_lt (es : List EmployeeR) (ms : List String)
    (i : Nat) (h1 : i < ms.length) (h2 : i < es.length) :
    (overwriteMissing es ms).getD i default =
      { es.getD i default with surname := ms.getD i "" } := by
  induction es generalizing ms i with
  | nil => simp at h2
  | cons e es ih =>
      cases ms with
      | nil => simp at h1
      | cons m ms =>
          cases i with
          | zero => rfl
          | succ i =>
              simp only [overwriteMissing, List.getD_cons_succ]
              exact ih ms i (by simpa using h1) (by simpa using h2)

lemma overwriteMissing_getD_ge (es : List EmployeeR) (ms : List String)
    (i : Nat) (h : ms.length ≤ i) :
    (overwriteMissing es ms).getD i default = es.getD i default := by
  induction es generalizing ms i with
  | nil => cases ms <;> rfl
  | cons e es ih =>
      cases ms with
      | nil => rfl
      | cons m ms =>
          cases i with
          | zero => simp at h
          | succ i =>
              simp only [overwriteMissing, List.getD_cons_succ]
              exact ih ms i (by simpa using h)

lemma overwriteMissing_getD_frame (es : List EmployeeR) (ms : List String)
    (i : Nat) :
    ((overwriteMissing es ms).getD i default).name =
        (es.getD i default).name ∧
      ((overwriteMissing es ms).getD i default).gender =
        (es.getD i default).gender ∧
      ((overwriteMissing es ms).getD i default).birthdate =
        (es.getD i default).birthdate ∧
      ((overwriteMissing es ms).getD i default).workload =
        (es.getD i default).workload := by
  rcases lt_or_ge i ms.length with h1 | h1
  · rcases lt_or_ge i es.length with h2 | h2
    · rw [overwriteMissing_getD_lt es ms i h1 h2]
      exact ⟨rfl, rfl, rfl, rfl⟩
    · rw [List.getD_eq_default _ _ h2,
        List.getD_eq_default _ _ (by rw [overwriteMissing_length]; exact h2)]
      exact ⟨rfl, rfl, rfl, rfl⟩
  · rw [overwriteMissing_getD_ge es ms i h1]
    exact ⟨rfl, rfl, rfl, rfl⟩

lemma repairDiversity_getD_frame (cnt : Nat) (es : List EmployeeR)
    (i : Nat) :
    ((repairDiversity cnt es).getD i default).name =
        (es.getD i default).name ∧
      ((repairDiversity cnt es).getD i default).gender =
        (es.getD i default).gender ∧
      ((repairDiversity cnt es).getD i default).birthdate =
        (es.getD i default).birthdate ∧
      ((repairDiversity cnt es).getD i default).workload =
        (es.getD i default).workload := by
  simp only [repairDiversity]
  split
  · split
    · exact overwriteMissing_getD_frame ..
    · exact ⟨rfl, rfl, rfl, rfl⟩
  · exact ⟨rfl, rfl, rfl, rfl⟩

/-! ### Claim theorems -/

/-- C1: refuted on the code (code bug).  The claim says every generated
employee's whole-years age from its birthdate to the current date lies
within the resolved `[minAge, maxAge]`.  Counter-evaluation on the simple
variant: with current date 2026-06-15 and request
`{employeeCount: 1, ageRange: {min: 18, max: 18}}` there are draws under
which the generated birthdate is "2008-12-01", whose whole-years age on
2026-06-15 is 17, below the resolved minimum 18: `randomBirthdate10` draws
only the year from the age range and ignores whether the birthday has
already passed this year, contradicting its own doc comment ("age is
between minAgeYears and maxAgeYears (inclusive)"). -/
theorem claim_c1_simple_variant_age_below_min :
    resolveParamsSimple (JSVal.obj [("employeeCount", JSVal.num 1),
        ("ageRange", JSVal.obj [("min", JSVal.num 18),
          ("max", JSVal.num 18)])]) = ⟨1, 18, 18⟩ ∧
    (mainSimple (fun k => if k = 4 then 11 else 0) ⟨2026, 6, 15⟩
        (JSVal.obj [("employeeCount", JSVal.num 1),
          ("ageRange", JSVal.obj [("min", JSVal.num 18),
            ("max", JSVal.num 18)])])).map EmployeeS.birthdate
      = ["2008-12-01"] ∧
    ageAt ⟨2008, 12, 1⟩ ⟨2026, 6, 15⟩ = 17 ∧
    ¬ (18 ≤ ageAt ⟨2008, 12, 1⟩ ⟨2026, 6, 15⟩) :=
  ⟨by decide, by decide, by decide, by decide⟩

/-- C2: refuted on the code (code bug).  The claim says that with
`employeeCount ≥ 8` every surname of the pool appears in the output of the
diversity-repair variant, regardless of the draws.  Counter-evaluation:
with request `{employeeCount: 8}` there are draws producing the surnames
`[Smith, Johnson, …, Johnson]`; the repair pass then overwrites the first
six employees — including the only "Smith" — with the six missing
surnames, so "Smith" is absent from the final output even though the count
equals the pool size, contradicting the pass's own comment ("guarantees
that all surnames appear at least once"). -/
theorem claim_c2_repair_can_lose_a_surname :
    resolveParamsRich (JSVal.obj [("employeeCount", JSVal.num 8)])
      = ⟨8, 18, 65⟩ ∧
    surnames.length = 8 ∧
    "Smith" ∈ surnames ∧
    (mainRich (fun k => if k % 5 = 2 then (if k = 2 then 0 else 1) else 0) 0
        (JSVal.obj [("employeeCount", JSVal.num 8)])).map EmployeeR.surname
      = ["Brown", "Taylor", "Anderson", "Thomas", "Jackson", "White",
         "Johnson", "Johnson"] ∧
    "Smith" ∉
      (mainRich (fun k => if k % 5 = 2 then (if k = 2 then 0 else 1) else 0) 0
        (JSVal.obj [("employeeCount", JSVal.num 8)])).map EmployeeR.surname :=
  ⟨by decide, by decide, by decide, by decide, by decide⟩

/-- C3: for every input (and every random source and clock), the length of
the returned list equals the resolved `employeeCount`, in both variants. -/
theorem claim_c3_output_length :
    (∀ (s : RandSrc) (now : Int) (dtoIn : JSVal),
       (mainRich s now dtoIn).length =
         (resolveParamsRich dtoIn).employeeCount) ∧
    (∀ (s : RandSrc) (today : Date) (dtoIn : JSVal),
       (mainSimple s today dtoIn).length =
         (resolveParamsSimple dtoIn).employeeCount) := by
  constructor
  · intro s now d
    have hd : mainRich s now d =
        repairDiversity (resolveParamsRich d).employeeCount
          ((List.range (resolveParamsRich d).employeeCount).map
            (genEmployeeR s now (resolveParamsRich d).minAge
              (resolveParamsRich d).maxAge)) := rfl
    rw [hd, repairDiversity_length, List.length_map, List.length_range]
  · intro s today d
    have hd : mainSimple s today d =
        (List.range (resolveParamsSimple d).employeeCount).map
          (genEmployeeS s today (resolveParamsSimple d).minAge
            (resolveParamsSimple d).maxAge) := rfl
    rw [hd, List.length_map, List.length_range]

/-- C4: in the strict variant (modelled from the spec, as only the lenient
variants are under `src/`), `generate(null)` fails with `not-an-object`,
`generate({employeeCount: -1, ageRange: {min: 0, max: 10}})` fails with
`invalid-employee-count`, `generate({employeeCount: 5,
ageRange: {min: 30, max: 20}})` fails with `invalid-age-range`, and in each
case no employee list is produced. -/
theorem claim_c4_strict_failure_causes :
    (∀ (s : RandSrc) (now : Int),
       mainStrict s now JSVal.null =
         Except.error InvalidInputCause.notAnObject) ∧
    (∀ (s : RandSrc) (now : Int),
       mainStrict s now (JSVal.obj [("employeeCount", JSVal.num (-1)),
           ("ageRange", JSVal.obj [("min", JSVal.num 0),
             ("max", JSVal.num 10)])]) =
         Except.error InvalidInputCause.invalidEmployeeCount) ∧
    (∀ (s : RandSrc) (now : Int),
       mainStrict s now (JSVal.obj [("employeeCount", JSVal.num 5),
           ("ageRange", JSVal.obj [("min", JSVal.num 30),
             ("max", JSVal.num 20)])]) =
         Except.error InvalidInputCause.invalidAgeRange) :=
  ⟨fun _ _ => rfl, fun _ _ => rfl, fun _ _ => rfl⟩

/-- C5: in lenient mode generation never fails: for every input the
resolved parameters are well-formed (`0 ≤ minAge ≤ maxAge`), malformed or
missing fields fall back to the defaults `employeeCount = 0`, `minAge = 18`,
`maxAge = 65`, generation proceeds; in particular `generate(3)` resolves to
3 employees with age range 18–65 and `generate({})` returns 0 employees —
in both lenient variants. -/
theorem claim_c5_lenient_defaults :
    (∀ dtoIn : JSVal, 0 ≤ (resolveParamsRich dtoIn).minAge ∧
       (resolveParamsRich dtoIn).minAge ≤ (resolveParamsRich dtoIn).maxAge) ∧
    (∀ dtoIn : JSVal, 0 ≤ (resolveParamsSimple dtoIn).minAge ∧
       (resolveParamsSimple dtoIn).minAge ≤
         (resolveParamsSimple dtoIn).maxAge) ∧
    resolveParamsRich JSVal.null = ⟨0, 18, 65⟩ ∧
    resolveParamsRich JSVal.undefined = ⟨0, 18, 65⟩ ∧
    resolveParamsRich (JSVal.str "bogus") = ⟨0, 18, 65⟩ ∧
    resolveParamsRich (JSVal.num (-1)) = ⟨0, 18, 65⟩ ∧
    resolveParamsRich JSVal.numNonInt = ⟨0, 18, 65⟩ ∧
    resolveParamsRich (JSVal.obj [("employeeCount", JSVal.str "x"),
        ("ageRange", JSVal.bool true)]) = ⟨0, 18, 65⟩ ∧
    resolveParamsRich (JSVal.num 3) = ⟨3, 18, 65⟩ ∧
    resolveParamsSimple (JSVal.num 3) = ⟨3, 18, 65⟩ ∧
    (∀ (s : RandSrc) (now : Int),
       (mainRich s now (JSVal.num 3)).length = 3 ∧
       (mainRich s now (JSVal.obj [])).length = 0) ∧
    (∀ (s : RandSrc) (today : Date),
       (mainSimple s today (JSVal.num 3)).length = 3 ∧
       (mainSimple s today (JSVal.obj [])).length = 0) :=
  ⟨resolveParamsRich_range, resolveParamsSimple_range, by decide, by decide,
   by decide, by decide, by decide, by decide, by decide, by decide,
   fun _ _ => ⟨rfl, rfl⟩, fun _ _ => ⟨rfl, rfl⟩⟩

/-- C6: in lenient mode `generate({employeeCount: 2,
ageRange: {min: 70, max: 10}})` resolves to `minAge = 70`, `maxAge = 70`:
the upper candidate 10 is rejected for being below the resolved lower bound
and the final clamp forces the default 65 up to 70 — in both lenient
variants. -/
theorem claim_c6_clamp_to_70_70 :
    resolveParamsRich (JSVal.obj [("employeeCount", JSVal.num 2),
        ("ageRange", JSVal.obj [("min", JSVal.num 70),
          ("max", JSVal.num 10)])]) = ⟨2, 70, 70⟩ ∧
    resolveParamsSimple (JSVal.obj [("employeeCount", JSVal.num 2),
        ("ageRange", JSVal.obj [("min", JSVal.num 70),
          ("max", JSVal.num 10)])]) = ⟨2, 70, 70⟩ :=
  ⟨by decide, by decide⟩

/-- C7: in the lenient-rich variant, the candidate-scanning loop is
equivalent to taking, independently for the lower and the upper bound, the
first defined value over the candidate sources in their fixed order
(`ageRange` sub-object, `age` sub-object, top level); consequently the two
bounds can come from different sources, as the concrete request
`{ageRange: {min: 20}, age: {maxAge: 50}}` (resolved to 20/50) shows. -/
theorem claim_c7_resolution_order :
    (∀ cands : List JSVal,
       pickCandidates cands =
         (firstDefined (cands.map minChain),
          firstDefined (cands.map maxChain))) ∧
    resolveParamsRich (JSVal.obj [("ageRange",
        JSVal.obj [("min", JSVal.num 20)]),
        ("age", JSVal.obj [("maxAge", JSVal.num 50)])]) = ⟨0, 20, 50⟩ :=
  ⟨pickCandidates_eq_firstDefined, by decide⟩

/-- C8: the surname-diversity repair pass overwrites only the `surname`
field of the first K employees in list order (K = number of missing
surnames, which the pass takes from the pool by `filter`, hence as a
sublist of the pool, i.e. in pool order), assigns them one each, and leaves
every other field of every employee — and the list length — unchanged. -/
theorem claim_c8_repair_frame :
    (∀ (es : List EmployeeR) (ms : List String),
       (overwriteMissing es ms).length = es.length) ∧
    (∀ (es : List EmployeeR) (ms : List String) (i : Nat),
       i < ms.length → i < es.length →
       (overwriteMissing es ms).getD i default =
         { es.getD i default with surname := ms.getD i "" }) ∧
    (∀ (es : List EmployeeR) (ms : List String) (i : Nat),
       ms.length ≤ i →
       (overwriteMissing es ms).getD i default = es.getD i default) ∧
    (∀ used : List String,
       (surnames.filter (fun n => !(used.contains n))).Sublist surnames) ∧
    (∀ (cnt : Nat) (es : List EmployeeR),
       (repairDiversity cnt es).length = es.length) ∧
    (∀ (cnt : Nat) (es : List EmployeeR) (i : Nat),
       ((repairDiversity cnt es).getD i default).name =
           (es.getD i default).name ∧
         ((repairDiversity cnt es).getD i default).gender =
           (es.getD i default).gender ∧
         ((repairDiversity cnt es).getD i default).birthdate =
           (es.getD i default).birthdate ∧
         ((repairDiversity cnt es).getD i default).workload =
           (es.getD i default).workload) :=
  ⟨overwriteMissing_length, overwriteMissing_getD_lt,
   overwriteMissing_getD_ge, fun _ => List.filter_sublist surnames,
   repairDiversity_length, repairDiversity_getD_frame⟩

/-- Witness for C8 at a concrete input: overwriting the two-employee list
with the single missing surname "White" keeps the length, replaces exactly
the first surname, and leaves the second employee untouched. -/
theorem claim_c8_repair_frame_witness :
    (overwriteMissing
        [(⟨"Ann", "Smith", "female", 5, 10⟩ : EmployeeR),
         (⟨"Bob", "Brown", "male", 6, 20⟩ : EmployeeR)]
        ["White"]).length = 2 ∧
    (overwriteMissing
        [(⟨"Ann", "Smith", "female", 5, 10⟩ : EmployeeR),
         (⟨"Bob", "Brown", "male", 6, 20⟩ : EmployeeR)]
        ["White"]).getD 0 default =
      (⟨"Ann", "White", "female", 5, 10⟩ : EmployeeR) ∧
    (overwriteMissing
        [(⟨"Ann", "Smith", "female", 5, 10⟩ : EmployeeR),
         (⟨"Bob", "Brown", "male", 6, 20⟩ : EmployeeR)]
        ["White"]).getD 1 default =
      (⟨"Bob", "Brown", "male", 6, 20⟩ : EmployeeR) :=
  ⟨claim_c8_repair_frame.1 _ _,
   claim_c8_repair_frame.2.1 _ _ 0 (by decide) (by decide),
   claim_c8_repair_frame.2.2.1 _ _ 1 (by decide)⟩

/-- C9: with a fixed clock, the output is a function of the input and of
the draws actually consumed (five per employee in the rich variant, seven
in the simple one): two random sources that agree on that prefix produce
identical output, so there is no hidden nondeterministic state beyond the
random source and the clock; identical sources are the special case of
full agreement. -/
theorem claim_c9_determinism :
    (∀ (dtoIn : JSVal) (now : Int) (s1 s2 : RandSrc),
       (∀ k, k < 5 * (resolveParamsRich dtoIn).employeeCount →
          s1 k = s2 k) →
       mainRich s1 now dtoIn = mainRich s2 now dtoIn) ∧
    (∀ (dtoIn : JSVal) (today : Date) (s1 s2 : RandSrc),
       (∀ k, k < 7 * (resolveParamsSimple dtoIn).employeeCount →
          s1 k = s2 k) →
       mainSimple s1 today dtoIn = mainSimple s2 today dtoIn) :=
  ⟨fun d now s1 s2 h => mainRich_congr s1 s2 now d h,
   fun d today s1 s2 h => mainSimple_congr s1 s2 today d h⟩

/-- Witness for C9 at a concrete input: for four requested employees, a
source that deviates only from draw 28 on yields the same output as the
all-zero source, in both variants. -/
theorem claim_c9_determinism_witness :
    mainRich (fun _ => 0) 0 (JSVal.num 4) =
      mainRich (fun k => if k < 28 then 0 else 3) 0 (JSVal.num 4) ∧
    mainSimple (fun _ => 0) ⟨2026, 1, 1⟩ (JSVal.num 4) =
      mainSimple (fun k => if k < 28 then 0 else 3) ⟨2026, 1, 1⟩
        (JSVal.num 4) :=
  ⟨claim_c9_determinism.1 (JSVal.num 4) 0 _ _ (by decide),
   claim_c9_determinism.2 (JSVal.num 4) ⟨2026, 1, 1⟩ _ _ (by decide)⟩

/-- C10: when the upper-bound candidate is a valid non-negative integer but
smaller than the resolved lower bound, it is discarded and the default 65
is kept, the final upper bound being the lower bound only when that bound
exceeds 65; in particular `{ageRange: {min: 30, max: 20}}` resolves to
`minAge = 30`, `maxAge = 65` in both lenient variants. -/
theorem claim_c10_max_below_min_keeps_default :
    (∀ minCandidate maxCandidate : JSVal,
       isIntegerNum maxCandidate = true →
       0 ≤ intVal maxCandidate →
       intVal maxCandidate < (applyRange minCandidate maxCandidate).1 →
       (applyRange minCandidate maxCandidate).2 =
         if 65 < (applyRange minCandidate maxCandidate).1 then
           (applyRange minCandidate maxCandidate).1
         else 65) ∧
    resolveParamsRich (JSVal.obj [("ageRange",
        JSVal.obj [("min", JSVal.num 30), ("max", JSVal.num 20)])])
      = ⟨0, 30, 65⟩ ∧
    resolveParamsSimple (JSVal.obj [("ageRange",
        JSVal.obj [("min", JSVal.num 30), ("max", JSVal.num 20)])])
      = ⟨0, 30, 65⟩ := by
  refine ⟨?_, by decide, by decide⟩
  intro mn mx hInt hNonneg hLt
  rw [applyRange_fst] at hLt
  rw [applyRange_fst]
  simp only [applyRange]
  have hcond : ¬ (isIntegerNum mx = true ∧
      (if isIntegerNum mn = true ∧ 0 ≤ intVal mn then intVal mn else 18) ≤
        intVal mx) := by
    rintro ⟨-, hle⟩
    exact absurd hLt (not_lt.mpr hle)
  rw [if_neg hcond]
  split_ifs <;> rfl

/-- Witness for C10 at a concrete input: the candidate pair (70, 10) — the
valid upper candidate 10 lies below the resolved lower bound 70 — yields an
upper bound per the theorem, concretely 70 since the lower bound exceeds
65. -/
theorem claim_c10_max_below_min_keeps_default_witness :
    (applyRange (JSVal.num 70) (JSVal.num 10)).2 =
      (if 65 < (applyRange (JSVal.num 70) (JSVal.num 10)).1 then
        (applyRange (JSVal.num 70) (JSVal.num 10)).1
      else 65) ∧
    (applyRange (JSVal.num 70) (JSVal.num 10)).2 = 70 :=
  ⟨claim_c10_max_below_min_keeps_default.1 (JSVal.num 70) (JSVal.num 10)
      (by decide) (by decide) (by decide),
   by decide⟩

end EmployeeGen
